import Mathlib

/-!
# Verification of the riser Maya-style camera rig

Shallow embedding of the pivot-relative camera controls of the riser 3D
viewer: the `MayaControls` class (tumble / pan / zoom / wheel handlers,
`setPivotPoint`) and the near-identical closure-based implementation in
`setupMayaControls` of `main.js`.  Vector and quaternion operations are
embedded from the three.js r0.132.2 primitives the code calls
(`Vector3.applyQuaternion`, `Vector3.normalize`, `Vector3.distanceTo`,
`Quaternion.setFromAxisAngle`), with real numbers in place of IEEE floats
(the properties of interest are stated "in exact arithmetic").
-/

namespace Riser

/-- `THREE.Vector3`: a 3D vector with real components. -/
structure Vec3 where
  x : ℝ
  y : ℝ
  z : ℝ

/-- `THREE.Quaternion`: components `(x, y, z, w)`. -/
structure Quat where
  x : ℝ
  y : ℝ
  z : ℝ
  w : ℝ

namespace Vec3

/-- `Vector3.add` / `addVectors`. -/
def add (a b : Vec3) : Vec3 := ⟨a.x + b.x, a.y + b.y, a.z + b.z⟩

/-- `Vector3.sub` / `subVectors a b` (componentwise `a - b`). -/
def sub (a b : Vec3) : Vec3 := ⟨a.x - b.x, a.y - b.y, a.z - b.z⟩

/-- `Vector3.multiplyScalar c`. -/
def smul (c : ℝ) (v : Vec3) : Vec3 := ⟨c * v.x, c * v.y, c * v.z⟩

/-- `Vector3.addScaledVector w c` applied to `v`: `v + c*w`. -/
def addScaledVector (v w : Vec3) (c : ℝ) : Vec3 := v.add (smul c w)

/-- `Vector3.lengthSq`. -/
def normSq (v : Vec3) : ℝ := v.x * v.x + v.y * v.y + v.z * v.z

/-- `Vector3.length`. -/
noncomputable def length (v : Vec3) : ℝ := Real.sqrt v.normSq

/-- `Vector3.distanceTo`. -/
noncomputable def distanceTo (a b : Vec3) : ℝ := (sub a b).length

/-- `Vector3.normalize` in three.js r132:
`this.divideScalar( this.length() || 1 )` — the JS `|| 1` makes the zero
vector (length `0`) divide by `1`, i.e. stay the zero vector. -/
noncomputable def normalize (v : Vec3) : Vec3 :=
  smul (if v.length = 0 then 1 else v.length)⁻¹ v

/-- `Vector3.applyQuaternion` in three.js r132: computes the vector part of
the sandwich product `q * v * conj q` (`calculate quat * vector` then
`calculate result * inverse quat` in the source). -/
def applyQuaternion (v : Vec3) (q : Quat) : Vec3 :=
  let ix := q.w * v.x + q.y * v.z - q.z * v.y
  let iy := q.w * v.y + q.z * v.x - q.x * v.z
  let iz := q.w * v.z + q.x * v.y - q.y * v.x
  let iw := -q.x * v.x - q.y * v.y - q.z * v.z
  ⟨ix * q.w + iw * (-q.x) + iy * (-q.z) - iz * (-q.y),
   iy * q.w + iw * (-q.y) + iz * (-q.x) - ix * (-q.z),
   iz * q.w + iw * (-q.z) + ix * (-q.y) - iy * (-q.x)⟩

end Vec3

namespace Quat

/-- `q.x^2 + q.y^2 + q.z^2 + q.w^2` (`Quaternion.lengthSq`). -/
def normSq (q : Quat) : ℝ := q.x * q.x + q.y * q.y + q.z * q.z + q.w * q.w

/-- `Quaternion.setFromAxisAngle(axis, angle)` (axis assumed normalized by
three.js): `s = sin(angle/2)`, components `(axis*s, cos(angle/2))`. -/
noncomputable def setFromAxisAngle (axis : Vec3) (angle : ℝ) : Quat :=
  let s := Real.sin (angle / 2)
  ⟨axis.x * s, axis.y * s, axis.z * s, Real.cos (angle / 2)⟩

end Quat

/-- `Math.sign` on non-NaN numbers. -/
noncomputable def jsSign (x : ℝ) : ℝ := if 0 < x then 1 else if x < 0 then -1 else 0

/-- Drag modes of the rig (`activeControl` is one of these strings or `null`). -/
inductive Control where
  | tumble
  | pan
  | zoom
deriving DecidableEq

/-- World-up axis `(0,1,0)` used for horizontal tumble rotation. -/
def yAxis : Vec3 := ⟨0, 1, 0⟩

/-- `new THREE.Vector3(1, 0, 0).applyQuaternion(camera.quaternion)`:
the camera's right vector, used as the vertical tumble axis. -/
def cameraRight (camQuat : Quat) : Vec3 := (Vec3.mk 1 0 0).applyQuaternion camQuat

namespace MC

/-- Options of `MayaControls` (constructor defaults
`rotateSpeed: 0.005, panSpeed: 0.001, zoomSpeed: 0.0025,
wheelZoomSpeed: 0.00025`). -/
structure Options where
  rotateSpeed : ℝ
  panSpeed : ℝ
  zoomSpeed : ℝ
  wheelZoomSpeed : ℝ

/-- The constructor's default option values. -/
noncomputable def defaultOptions : Options := ⟨5 / 1000, 1 / 1000, 25 / 10000, 25 / 100000⟩

/-- Mutable state of a `MayaControls` instance: the controlled camera
(position and orientation quaternion), `cameraTarget`, `pivotPoint`, the
enable/modifier flags, the active drag mode, and the drag-start snapshots. -/
structure State where
  position : Vec3
  camQuat : Quat
  cameraTarget : Vec3
  pivotPoint : Vec3
  isEnabled : Bool
  isAltDown : Bool
  activeControl : Option Control
  prevMouseX : ℝ
  prevMouseY : ℝ
  distanceToPivot : ℝ
  zoomStartDistance : ℝ

/-- `MayaControls.onMouseDown`: returns unchanged on `!isEnabled || !isAltDown`;
otherwise stores the mouse position, snapshots `distanceToPivot` and
`zoomStartDistance`, and sets `activeControl` from the button
(0 → tumble, 1 → pan, 2 → zoom, anything else leaves it as it was). -/
noncomputable def onMouseDown (s : State) (button : ℕ) (mouseX mouseY : ℝ) : State :=
  if ¬s.isEnabled ∨ ¬s.isAltDown then s
  else
    { s with
      prevMouseX := mouseX
      prevMouseY := mouseY
      distanceToPivot := s.position.distanceTo s.pivotPoint
      zoomStartDistance := s.position.distanceTo s.pivotPoint
      activeControl :=
        if button = 0 then some Control.tumble
        else if button = 1 then some Control.pan
        else if button = 2 then some Control.zoom
        else s.activeControl }

/-- `MayaControls.onMouseUp`: clears the active control. -/
def onMouseUp (s : State) : State := { s with activeControl := none }

/-- `MayaControls.handleTumble(deltaX, deltaY)`:
rotate `pivotToCamera = position - pivotPoint` by a horizontal quaternion
(world up, angle `-deltaX * rotateSpeed`) then a vertical quaternion
(camera right, angle `-deltaY * rotateSpeed`), renormalize to the original
length, set `position = pivotPoint + pivotToCamera`; rotate
`targetToPivot = pivotPoint - cameraTarget` by the same two quaternions and
set `cameraTarget = pivotPoint - targetToPivot`. -/
noncomputable def handleTumble (o : Options) (s : State) (deltaX deltaY : ℝ) : State :=
  let pivotToCamera := s.position.sub s.pivotPoint
  let originalDistance := pivotToCamera.length
  let horizontalQuat := Quat.setFromAxisAngle yAxis (-deltaX * o.rotateSpeed)
  let pivotToCamera := pivotToCamera.applyQuaternion horizontalQuat
  let verticalQuat := Quat.setFromAxisAngle (cameraRight s.camQuat) (-deltaY * o.rotateSpeed)
  let pivotToCamera := pivotToCamera.applyQuaternion verticalQuat
  let pivotToCamera := Vec3.smul originalDistance pivotToCamera.normalize
  let targetToPivot := s.pivotPoint.sub s.cameraTarget
  let targetToPivot := targetToPivot.applyQuaternion horizontalQuat
  let targetToPivot := targetToPivot.applyQuaternion verticalQuat
  { s with
    position := s.pivotPoint.add pivotToCamera
    cameraTarget := s.pivotPoint.sub targetToPivot }

/-- `MayaControls.handlePan(deltaX, deltaY)`:
`panSpeed = distanceToPivot * options.panSpeed`; movement =
`right * (-deltaX * panSpeed) + up * (deltaY * panSpeed)` in the camera
frame; both `position` and `cameraTarget` are translated by it. -/
def handlePan (o : Options) (s : State) (deltaX deltaY : ℝ) : State :=
  let panSpeed := s.distanceToPivot * o.panSpeed
  let right := (Vec3.mk 1 0 0).applyQuaternion s.camQuat
  let up := (Vec3.mk 0 1 0).applyQuaternion s.camQuat
  let movement := ((Vec3.mk 0 0 0).addScaledVector right (-deltaX * panSpeed)).addScaledVector
    up (deltaY * panSpeed)
  { s with
    position := s.position.add movement
    cameraTarget := s.cameraTarget.add movement }

/-- `MayaControls.handleZoom(deltaX)`:
`zoomAmount = deltaX * options.zoomSpeed * zoomStartDistance`, camera moves
by it along `normalize(cameraTarget - position)`. -/
noncomputable def handleZoom (o : Options) (s : State) (deltaX : ℝ) : State :=
  let zoomDirection := (s.cameraTarget.sub s.position).normalize
  let zoomAmount := deltaX * o.zoomSpeed * s.zoomStartDistance
  { s with position := s.position.addScaledVector zoomDirection zoomAmount }

/-- `MayaControls.onWheel(event)` (body past the `isEnabled` guard):
camera moves by `deltaY * wheelZoomSpeed * distanceTo(cameraTarget)` along
`normalize(cameraTarget - position)`. -/
noncomputable def onWheel (o : Options) (s : State) (deltaY : ℝ) : State :=
  let distance := s.position.distanceTo s.cameraTarget
  let zoomDirection := (s.cameraTarget.sub s.position).normalize
  { s with position := s.position.addScaledVector zoomDirection (deltaY * o.wheelZoomSpeed * distance) }

/-- `MayaControls.setPivotPoint(point)`: `pivotPoint.copy(point)` (the
indicator update and event dispatch touch no rig state). -/
def setPivotPoint (s : State) (point : Vec3) : State := { s with pivotPoint := point }

end MC

namespace Main

/-- Closure state of `setupMayaControls` in `main.js`: the camera
(position and quaternion), `cameraTarget`, `pivotPoint`, plus the local
variables `isAltDown`, `activeControl`, `prevMouse`, `distanceToPivot`,
`zoomStartDistance`. -/
structure State where
  position : Vec3
  camQuat : Quat
  cameraTarget : Vec3
  pivotPoint : Vec3
  isAltDown : Bool
  activeControl : Option Control
  prevMouseX : ℝ
  prevMouseY : ℝ
  distanceToPivot : ℝ
  zoomStartDistance : ℝ

/-- `main.js` mousedown handler: only runs under `if (isAltDown)`; stores the
mouse position, snapshots `distanceToPivot` / `zoomStartDistance`, and sets
`activeControl` from the button exactly as `MayaControls.onMouseDown`. -/
noncomputable def mouseDown (s : State) (button : ℕ) (mouseX mouseY : ℝ) : State :=
  if ¬s.isAltDown then s
  else
    { s with
      prevMouseX := mouseX
      prevMouseY := mouseY
      distanceToPivot := s.position.distanceTo s.pivotPoint
      zoomStartDistance := s.position.distanceTo s.pivotPoint
      activeControl :=
        if button = 0 then some Control.tumble
        else if button = 1 then some Control.pan
        else if button = 2 then some Control.zoom
        else s.activeControl }

/-- The `activeControl === 'tumble'` branch of the `main.js` mousemove
handler, with `rotateSpeed = 0.005` inline; the vector/quaternion steps are
letter-for-letter those of `MayaControls.handleTumble`. -/
noncomputable def tumbleStep (s : State) (deltaX deltaY : ℝ) : State :=
  let rotateSpeed : ℝ := 5 / 1000
  let pivotToCamera := s.position.sub s.pivotPoint
  let originalDistance := pivotToCamera.length
  let horizontalQuat := Quat.setFromAxisAngle yAxis (-deltaX * rotateSpeed)
  let pivotToCamera := pivotToCamera.applyQuaternion horizontalQuat
  let verticalQuat := Quat.setFromAxisAngle (cameraRight s.camQuat) (-deltaY * rotateSpeed)
  let pivotToCamera := pivotToCamera.applyQuaternion verticalQuat
  let pivotToCamera := Vec3.smul originalDistance pivotToCamera.normalize
  let targetToPivot := s.pivotPoint.sub s.cameraTarget
  let targetToPivot := targetToPivot.applyQuaternion horizontalQuat
  let targetToPivot := targetToPivot.applyQuaternion verticalQuat
  { s with
    position := s.pivotPoint.add pivotToCamera
    cameraTarget := s.pivotPoint.sub targetToPivot }

/-- The `activeControl === 'pan'` branch of the `main.js` mousemove handler,
with `panSpeed = distanceToPivot * 0.001` inline. -/
noncomputable def panStep (s : State) (deltaX deltaY : ℝ) : State :=
  let panSpeed := s.distanceToPivot * (1 / 1000)
  let right := (Vec3.mk 1 0 0).applyQuaternion s.camQuat
  let up := (Vec3.mk 0 1 0).applyQuaternion s.camQuat
  let movement := ((Vec3.mk 0 0 0).addScaledVector right (-deltaX * panSpeed)).addScaledVector
    up (deltaY * panSpeed)
  { s with
    position := s.position.add movement
    cameraTarget := s.cameraTarget.add movement }

/-- The `activeControl === 'zoom'` branch of the `main.js` mousemove handler:
`adaptiveZoomSpeed = 0.00375 * max(currentDistance, 0.5)` with
`currentDistance = position.distanceTo(cameraTarget)` recomputed at each
step; `zoomAmount = deltaX * adaptiveZoomSpeed` along
`normalize(cameraTarget - position)`. -/
noncomputable def zoomStep (s : State) (deltaX : ℝ) : State :=
  let zoomDirection := (s.cameraTarget.sub s.position).normalize
  let currentDistance := s.position.distanceTo s.cameraTarget
  let baseZoomSpeed : ℝ := 375 / 100000
  let adaptiveZoomSpeed := baseZoomSpeed * max currentDistance (1 / 2)
  let zoomAmount := deltaX * adaptiveZoomSpeed
  { s with position := s.position.addScaledVector zoomDirection zoomAmount }

/-- The `main.js` wheel handler:
`zoomFactor = 0.00375 * max(currentDistance, 0.5) * sign(deltaY) *
min(|deltaY|, 50)` along `normalize(cameraTarget - position)`. -/
noncomputable def wheelStep (s : State) (deltaY : ℝ) : State :=
  let currentDistance := s.position.distanceTo s.cameraTarget
  let baseZoomSpeed : ℝ := 375 / 100000
  let adaptiveZoomSpeed := baseZoomSpeed * max currentDistance (1 / 2)
  let zoomFactor := adaptiveZoomSpeed * jsSign deltaY * min |deltaY| 50
  let zoomDirection := (s.cameraTarget.sub s.position).normalize
  { s with position := s.position.addScaledVector zoomDirection zoomFactor }

/-- The pivot assignment of the Ctrl+click handler in `main.js`
(`this.pivotPoint.copy(intersects[0].point)`): camera and target untouched. -/
def setPivotOnClick (s : State) (point : Vec3) : State := { s with pivotPoint := point }

end Main

end Riser

namespace Riser

/-! ## Concrete states used to exercise the handlers -/

/-- A `MayaControls` state: camera at `(0,5,10)` with identity orientation,
target at the origin, pivot off-center at `(2,0,0)`, Alt held, no active drag. -/
noncomputable def mcSample : MC.State :=
  ⟨⟨0, 5, 10⟩, ⟨0, 0, 0, 1⟩, ⟨0, 0, 0⟩, ⟨2, 0, 0⟩, true, true, none, 0, 0, 0, 0⟩

/-- The `main.js` closure state matching `mcSample`. -/
noncomputable def mainSample : Main.State :=
  ⟨⟨0, 5, 10⟩, ⟨0, 0, 0, 1⟩, ⟨0, 0, 0⟩, ⟨2, 0, 0⟩, true, none, 0, 0, 0, 0⟩

/-- A `MayaControls` state in the middle of a tumble drag (Alt held,
`activeControl = 'tumble'`). -/
noncomputable def dragActiveState : MC.State :=
  ⟨⟨0, 0, 10⟩, ⟨0, 0, 0, 1⟩, ⟨0, 0, 0⟩, ⟨0, 0, 0⟩, true, true, some Control.tumble,
    0, 0, 10, 10⟩

/-- A `main.js` state with the camera `3/32 = 0.09375` units in front of the
look-at target. -/
noncomputable def nearTargetState : Main.State :=
  ⟨⟨3 / 32, 0, 0⟩, ⟨0, 0, 0, 1⟩, ⟨0, 0, 0⟩, ⟨0, 0, 0⟩, true, some Control.zoom,
    0, 0, 3 / 32, 3 / 32⟩

/-- A `main.js` state with the camera exactly at the look-at target. -/
noncomputable def atTargetState : Main.State :=
  ⟨⟨0, 0, 0⟩, ⟨0, 0, 0, 1⟩, ⟨0, 0, 0⟩, ⟨0, 0, 0⟩, true, none, 0, 0, 0, 0⟩

/-- A `main.js` state with the camera one unit above the target on the z axis. -/
noncomputable def unitZState : Main.State :=
  ⟨⟨0, 0, 1⟩, ⟨0, 0, 0, 1⟩, ⟨0, 0, 0⟩, ⟨0, 0, 0⟩, true, none, 0, 0, 1, 1⟩

/-- A `main.js` state with the camera four units from the target, about to
start a right-button zoom drag. -/
noncomputable def zoomDragState : Main.State :=
  ⟨⟨0, 0, 4⟩, ⟨0, 0, 0, 1⟩, ⟨0, 0, 0⟩, ⟨0, 0, 0⟩, true, none, 0, 0, 0, 0⟩

/-! ## Vector algebra lemmas -/

namespace Vec3

lemma normSq_nonneg (v : Vec3) : 0 ≤ v.normSq := by
  have hx := mul_self_nonneg v.x
  have hy := mul_self_nonneg v.y
  have hz := mul_self_nonneg v.z
  unfold normSq; linarith

lemma length_nonneg (v : Vec3) : 0 ≤ v.length := Real.sqrt_nonneg _

lemma normSq_eq_zero_iff (v : Vec3) : v.normSq = 0 ↔ v = ⟨0, 0, 0⟩ := by
  constructor
  · intro h
    have hx := mul_self_nonneg v.x
    have hy := mul_self_nonneg v.y
    have hz := mul_self_nonneg v.z
    have hx0 : v.x = 0 := by
      have : v.x * v.x = 0 := by unfold normSq at h; linarith
      exact mul_self_eq_zero.mp this
    have hy0 : v.y = 0 := by
      have : v.y * v.y = 0 := by unfold normSq at h; linarith
      exact mul_self_eq_zero.mp this
    have hz0 : v.z = 0 := by
      have : v.z * v.z = 0 := by unfold normSq at h; linarith
      exact mul_self_eq_zero.mp this
    cases v; simp_all
  · intro h; subst h; simp [normSq]

lemma length_eq_zero_iff (v : Vec3) : v.length = 0 ↔ v = ⟨0, 0, 0⟩ := by
  rw [length, Real.sqrt_eq_zero v.normSq_nonneg, normSq_eq_zero_iff]

lemma length_pos_of_ne (v : Vec3) (h : v ≠ ⟨0, 0, 0⟩) : 0 < v.length := by
  rcases lt_or_eq_of_le v.length_nonneg with h1 | h1
  · exact h1
  · exact absurd (v.length_eq_zero_iff.mp h1.symm) h

lemma normSq_smul (c : ℝ) (v : Vec3) : (smul c v).normSq = c ^ 2 * v.normSq := by
  simp only [smul, normSq]; ring

lemma length_smul (c : ℝ) (v : Vec3) : (smul c v).length = |c| * v.length := by
  rw [length, normSq_smul, Real.sqrt_mul (sq_nonneg c), Real.sqrt_sq_eq_abs, length]

lemma smul_smul (a b : ℝ) (v : Vec3) : smul a (smul b v) = smul (a * b) v := by
  simp only [smul]; congr 1 <;> ring

lemma smul_one (v : Vec3) : smul 1 v = v := by
  cases v; simp [smul]

lemma smul_zero_vec (c : ℝ) : smul c ⟨0, 0, 0⟩ = ⟨0, 0, 0⟩ := by
  simp [smul]

lemma add_sub_cancel_left (a w : Vec3) : (a.add w).sub a = w := by
  cases a; cases w; simp only [add, sub, mk.injEq]
  refine ⟨by ring, by ring, by ring⟩

lemma add_sub_of_sub (a b : Vec3) : a.add (b.sub a) = b := by
  cases a; cases b; simp only [add, sub, mk.injEq]
  refine ⟨by ring, by ring, by ring⟩

lemma sub_sub_of_sub (a b : Vec3) : a.sub (a.sub b) = b := by
  cases a; cases b; simp only [sub, mk.injEq]
  refine ⟨by ring, by ring, by ring⟩

lemma sub_self_vec (a : Vec3) : a.sub a = ⟨0, 0, 0⟩ := by
  cases a; simp [sub]

lemma normSq_sub_comm (a b : Vec3) : (a.sub b).normSq = (b.sub a).normSq := by
  simp only [sub, normSq]; ring

lemma length_sub_comm (a b : Vec3) : (a.sub b).length = (b.sub a).length := by
  rw [length, normSq_sub_comm, length]

lemma distanceTo_comm (a b : Vec3) : a.distanceTo b = b.distanceTo a := by
  rw [distanceTo, distanceTo, length_sub_comm]

/-- The zero vector is a fixed point of the (linear) quaternion rotation. -/
lemma applyQuaternion_zero_vec (q : Quat) : applyQuaternion ⟨0, 0, 0⟩ q = ⟨0, 0, 0⟩ := by
  simp only [applyQuaternion, mk.injEq]
  refine ⟨by ring, by ring, by ring⟩

/-- The identity quaternion `(0,0,0,1)` rotates every vector to itself. -/
lemma applyQuaternion_id (v : Vec3) : v.applyQuaternion ⟨0, 0, 0, 1⟩ = v := by
  cases v; simp only [applyQuaternion, mk.injEq]
  refine ⟨by ring, by ring, by ring⟩

/-- The r132 `applyQuaternion` is the vector part of `q * v * conj q`, so it
scales squared length by `normSq q ^ 2`. -/
lemma normSq_applyQuaternion (v : Vec3) (q : Quat) :
    (v.applyQuaternion q).normSq = q.normSq ^ 2 * v.normSq := by
  cases v; cases q
  simp only [applyQuaternion, normSq, Quat.normSq]
  ring

/-- Renormalizing a vector to its own length is the identity, also on the
zero vector (where the `|| 1` guard applies). -/
lemma smul_length_normalize (v : Vec3) : smul v.length v.normalize = v := by
  unfold normalize
  by_cases h : v.length = 0
  · have hv : v = ⟨0, 0, 0⟩ := v.length_eq_zero_iff.mp h
    rw [hv]; simp [smul]
  · rw [if_neg h, smul_smul, mul_inv_cancel₀ h, smul_one]

/-- A nonzero vector normalizes to a unit vector. -/
lemma length_normalize (v : Vec3) (h : v ≠ ⟨0, 0, 0⟩) : v.normalize.length = 1 := by
  have hl : v.length ≠ 0 := fun h0 => h (v.length_eq_zero_iff.mp h0)
  have hpos : 0 < v.length := v.length_pos_of_ne h
  unfold normalize
  rw [if_neg hl, length_smul, abs_of_pos (inv_pos.mpr hpos), inv_mul_cancel₀ hl]

end Vec3

/-- A quaternion built from a unit axis is a unit quaternion
(`sin² + cos² = 1`). -/
lemma normSq_setFromAxisAngle (axis : Vec3) (angle : ℝ) (h : axis.normSq = 1) :
    (Quat.setFromAxisAngle axis angle).normSq = 1 := by
  simp only [Quat.setFromAxisAngle, Quat.normSq]
  have hs : Real.sin (angle / 2) ^ 2 + Real.cos (angle / 2) ^ 2 = 1 :=
    Real.sin_sq_add_cos_sq _
  have haxis : axis.x * axis.x + axis.y * axis.y + axis.z * axis.z = 1 := h
  nlinarith [hs, haxis]

/-- The world-up axis is unit. -/
lemma normSq_yAxis : yAxis.normSq = 1 := by norm_num [yAxis, Vec3.normSq]

/-- The camera right vector is unit whenever the camera quaternion is. -/
lemma normSq_cameraRight (q : Quat) (h : q.normSq = 1) : (cameraRight q).normSq = 1 := by
  rw [cameraRight, Vec3.normSq_applyQuaternion, h]
  norm_num [Vec3.normSq]

/-- Core tumble computation: rotating by two unit quaternions and
renormalizing to the original length yields a vector of exactly that
length. -/
lemma length_rotate_renormalize (v : Vec3) (q1 q2 : Quat)
    (h1 : q1.normSq = 1) (h2 : q2.normSq = 1) :
    (Vec3.smul v.length ((v.applyQuaternion q1).applyQuaternion q2).normalize).length
      = v.length := by
  set u := (v.applyQuaternion q1).applyQuaternion q2 with hu
  have hnormSq : u.normSq = v.normSq := by
    rw [hu, Vec3.normSq_applyQuaternion, Vec3.normSq_applyQuaternion, h1, h2]
    ring
  rw [Vec3.length_smul, abs_of_nonneg v.length_nonneg]
  by_cases hv : v = ⟨0, 0, 0⟩
  · subst hv
    simp [Vec3.length, Vec3.normSq]
  · have hune : u ≠ ⟨0, 0, 0⟩ := by
      intro h0
      refine hv (v.normSq_eq_zero_iff.mp ?_)
      rw [← hnormSq, h0]; simp [Vec3.normSq]
    rw [Vec3.length_normalize u hune, mul_one]

end Riser

namespace Riser

/-! ## More vector lemmas and concrete evaluation helpers -/

namespace Vec3

lemma sub_zero_vec (a : Vec3) : a.sub ⟨0, 0, 0⟩ = a := by
  cases a; simp [sub]

lemma add_sub_add_cancel (a b m : Vec3) : (a.add m).sub (b.add m) = a.sub b := by
  cases a; cases b; cases m; simp only [add, sub, mk.injEq]
  refine ⟨by ring, by ring, by ring⟩

lemma sub_add_eq (a b m : Vec3) : a.sub (b.add m) = (a.sub b).sub m := by
  cases a; cases b; cases m; simp only [add, sub, mk.injEq]
  refine ⟨by ring, by ring, by ring⟩

lemma sub_smul_self (w : Vec3) (k : ℝ) : w.sub (smul k w) = smul (1 - k) w := by
  cases w; simp only [sub, smul, mk.injEq]
  refine ⟨by ring, by ring, by ring⟩

lemma length_axis_x (a : ℝ) : (Vec3.mk a 0 0).length = |a| := by
  rw [length, show (Vec3.mk a 0 0).normSq = a ^ 2 by simp [normSq]; ring,
    Real.sqrt_sq_eq_abs]

lemma length_axis_z (a : ℝ) : (Vec3.mk 0 0 a).length = |a| := by
  rw [length, show (Vec3.mk 0 0 a).normSq = a ^ 2 by simp [normSq]; ring,
    Real.sqrt_sq_eq_abs]

lemma length_zero_vec : (Vec3.mk 0 0 0).length = 0 := by
  simp [length, normSq]

lemma normalize_zero_vec : (Vec3.mk 0 0 0).normalize = ⟨0, 0, 0⟩ := by
  simp [normalize, length_zero_vec, smul]

/-- A nonzero vector is sent by `normalize` to `length⁻¹ •` itself. -/
lemma normalize_of_ne (v : Vec3) (h : v ≠ ⟨0, 0, 0⟩) :
    v.normalize = smul v.length⁻¹ v := by
  have hl : v.length ≠ 0 := fun h0 => h (v.length_eq_zero_iff.mp h0)
  rw [normalize, if_neg hl]

end Vec3

/-- If the camera sits on the `z` axis at height `a > 0` and the target is
the origin, a `main.js` drag-zoom step moves it straight down the axis by
`deltaX * 0.00375 * max a 0.5`. -/
lemma zoomStep_z_axis (s : Main.State) (a Δ : ℝ) (ha : 0 < a)
    (hp : s.position = ⟨0, 0, a⟩) (ht : s.cameraTarget = ⟨0, 0, 0⟩) :
    (Main.zoomStep s Δ).position
      = ⟨0, 0, a - Δ * (375 / 100000 * max a (1 / 2))⟩ := by
  have hsub : s.cameraTarget.sub s.position = ⟨0, 0, -a⟩ := by
    rw [hp, ht]; simp [Vec3.sub]
  have hlen : (Vec3.mk 0 0 (-a)).length = a := by
    rw [Vec3.length_axis_z, abs_neg, abs_of_pos ha]
  have hne : (Vec3.mk 0 0 (-a)) ≠ ⟨0, 0, 0⟩ := by
    intro h0
    rw [Vec3.mk.injEq] at h0
    exact absurd (neg_eq_zero.mp h0.2.2) (ne_of_gt ha)
  have hdir : (s.cameraTarget.sub s.position).normalize = ⟨0, 0, -1⟩ := by
    rw [hsub, Vec3.normalize_of_ne _ hne, hlen, Vec3.smul, Vec3.mk.injEq]
    refine ⟨by ring, by ring, ?_⟩
    field_simp
  have hdist : s.position.distanceTo s.cameraTarget = a := by
    rw [Vec3.distanceTo, hp, ht, show (Vec3.mk 0 0 a).sub ⟨0, 0, 0⟩ = ⟨0, 0, a⟩ from
      Vec3.sub_zero_vec _, Vec3.length_axis_z, abs_of_pos ha]
  show s.position.add _ = _
  rw [hdir, hdist, hp, Vec3.smul, Vec3.add, Vec3.mk.injEq]
  refine ⟨by ring, by ring, by ring⟩

end Riser

namespace Riser

/-! ## Claim theorems -/

/-- Distance form of the tumble step: adding the renormalized rotated offset
back onto the pivot leaves the distance to the pivot unchanged. -/
lemma tumble_dist_core (p piv : Vec3) (q1 q2 : Quat)
    (h1 : q1.normSq = 1) (h2 : q2.normSq = 1) :
    (piv.add (Vec3.smul (p.sub piv).length
        (((p.sub piv).applyQuaternion q1).applyQuaternion q2).normalize)).distanceTo piv
      = p.distanceTo piv := by
  rw [Vec3.distanceTo, Vec3.add_sub_cancel_left,
    length_rotate_renormalize _ _ _ h1 h2]
  rfl

/-- C1: every tumble step updates the look-at target to
`pivot - rotated (pivot - target)`, where the rotation is by the same
horizontal and vertical quaternions applied to the camera offset; in
particular when the pivot equals the target the target is unchanged.
Proved for both `MayaControls.handleTumble` and the `main.js` tumble branch. -/
theorem tumble_target_rotation_formula (o : MC.Options) (s : MC.State)
    (t : Main.State) (dx dy : ℝ) :
    ((MC.handleTumble o s dx dy).cameraTarget
        = s.pivotPoint.sub
            (((s.pivotPoint.sub s.cameraTarget).applyQuaternion
                (Quat.setFromAxisAngle yAxis (-dx * o.rotateSpeed))).applyQuaternion
              (Quat.setFromAxisAngle (cameraRight s.camQuat) (-dy * o.rotateSpeed))))
    ∧ (s.pivotPoint = s.cameraTarget →
        (MC.handleTumble o s dx dy).cameraTarget = s.cameraTarget)
    ∧ ((Main.tumbleStep t dx dy).cameraTarget
        = t.pivotPoint.sub
            (((t.pivotPoint.sub t.cameraTarget).applyQuaternion
                (Quat.setFromAxisAngle yAxis (-dx * (5 / 1000)))).applyQuaternion
              (Quat.setFromAxisAngle (cameraRight t.camQuat) (-dy * (5 / 1000)))))
    ∧ (t.pivotPoint = t.cameraTarget →
        (Main.tumbleStep t dx dy).cameraTarget = t.cameraTarget) := by
  have hMC : (MC.handleTumble o s dx dy).cameraTarget
      = s.pivotPoint.sub
          (((s.pivotPoint.sub s.cameraTarget).applyQuaternion
              (Quat.setFromAxisAngle yAxis (-dx * o.rotateSpeed))).applyQuaternion
            (Quat.setFromAxisAngle (cameraRight s.camQuat) (-dy * o.rotateSpeed))) := rfl
  have hMain : (Main.tumbleStep t dx dy).cameraTarget
      = t.pivotPoint.sub
          (((t.pivotPoint.sub t.cameraTarget).applyQuaternion
              (Quat.setFromAxisAngle yAxis (-dx * (5 / 1000)))).applyQuaternion
            (Quat.setFromAxisAngle (cameraRight t.camQuat) (-dy * (5 / 1000)))) := rfl
  refine ⟨hMC, fun h => ?_, hMain, fun h => ?_⟩
  · rw [hMC, h, Vec3.sub_self_vec, Vec3.applyQuaternion_zero_vec,
      Vec3.applyQuaternion_zero_vec, Vec3.sub_zero_vec]
  · rw [hMain, h, Vec3.sub_self_vec, Vec3.applyQuaternion_zero_vec,
      Vec3.applyQuaternion_zero_vec, Vec3.sub_zero_vec]

/-- Witness for C1: at a state whose pivot coincides with its target, a
concrete tumble step leaves the target unchanged. -/
theorem tumble_target_rotation_formula_witness :
    dragActiveState.pivotPoint = dragActiveState.cameraTarget
    ∧ (MC.handleTumble MC.defaultOptions dragActiveState 100 0).cameraTarget
        = dragActiveState.cameraTarget :=
  ⟨rfl,
    (tumble_target_rotation_formula MC.defaultOptions dragActiveState mainSample 100 0).2.1 rfl⟩

/-- C2: every tumble step preserves the camera-to-pivot distance in exact
arithmetic (the rotated offset is renormalized to the original length), given
that the camera orientation quaternion is unit, as `lookAt` maintains it. -/
theorem tumble_preserves_distance_to_pivot (o : MC.Options) (s : MC.State)
    (t : Main.State) (dx dy : ℝ)
    (hs : s.camQuat.normSq = 1) (ht : t.camQuat.normSq = 1) :
    (MC.handleTumble o s dx dy).position.distanceTo
        (MC.handleTumble o s dx dy).pivotPoint
      = s.position.distanceTo s.pivotPoint
    ∧ (Main.tumbleStep t dx dy).position.distanceTo
        (Main.tumbleStep t dx dy).pivotPoint
      = t.position.distanceTo t.pivotPoint := by
  constructor
  · exact tumble_dist_core s.position s.pivotPoint _ _
      (normSq_setFromAxisAngle _ _ normSq_yAxis)
      (normSq_setFromAxisAngle _ _ (normSq_cameraRight _ hs))
  · exact tumble_dist_core t.position t.pivotPoint _ _
      (normSq_setFromAxisAngle _ _ normSq_yAxis)
      (normSq_setFromAxisAngle _ _ (normSq_cameraRight _ ht))

/-- Witness for C2: a concrete tumble step (deltas `(100, 3)`) on states with
the identity camera quaternion preserves the camera-to-pivot distance. -/
theorem tumble_preserves_distance_to_pivot_witness :
    mcSample.camQuat.normSq = 1 ∧ mainSample.camQuat.normSq = 1
    ∧ ((MC.handleTumble MC.defaultOptions mcSample 100 3).position.distanceTo
          (MC.handleTumble MC.defaultOptions mcSample 100 3).pivotPoint
        = mcSample.position.distanceTo mcSample.pivotPoint
      ∧ (Main.tumbleStep mainSample 100 3).position.distanceTo
          (Main.tumbleStep mainSample 100 3).pivotPoint
        = mainSample.position.distanceTo mainSample.pivotPoint) :=
  ⟨by norm_num [mcSample, Quat.normSq], by norm_num [mainSample, Quat.normSq],
    tumble_preserves_distance_to_pivot MC.defaultOptions mcSample mainSample 100 3
      (by norm_num [mcSample, Quat.normSq]) (by norm_num [mainSample, Quat.normSq])⟩

/-- C3: every pan step leaves the pivot unchanged and translates camera
position and target by the identical movement vector, so the view offset
`position - target` is invariant. Proved for both implementations. -/
theorem pan_preserves_pivot_and_view_offset (o : MC.Options) (s : MC.State)
    (t : Main.State) (dx dy : ℝ) :
    ((MC.handlePan o s dx dy).pivotPoint = s.pivotPoint
      ∧ (MC.handlePan o s dx dy).position.sub (MC.handlePan o s dx dy).cameraTarget
          = s.position.sub s.cameraTarget)
    ∧ ((Main.panStep t dx dy).pivotPoint = t.pivotPoint
      ∧ (Main.panStep t dx dy).position.sub (Main.panStep t dx dy).cameraTarget
          = t.position.sub t.cameraTarget) := by
  refine ⟨⟨rfl, ?_⟩, ⟨rfl, ?_⟩⟩ <;> exact Vec3.add_sub_add_cancel _ _ _

/-- C6: every zoom operation (drag-zoom in either implementation, and both
wheel handlers) leaves the look-at target unchanged and displaces the camera
by a scalar multiple of the normalized `target - position` direction. -/
theorem zoom_is_pure_dolly (o : MC.Options) (s : MC.State) (t : Main.State)
    (dx dy : ℝ) :
    ((MC.handleZoom o s dx).cameraTarget = s.cameraTarget
      ∧ (MC.handleZoom o s dx).position.sub s.position
          = Vec3.smul (dx * o.zoomSpeed * s.zoomStartDistance)
              (s.cameraTarget.sub s.position).normalize)
    ∧ ((MC.onWheel o s dy).cameraTarget = s.cameraTarget
      ∧ (MC.onWheel o s dy).position.sub s.position
          = Vec3.smul (dy * o.wheelZoomSpeed * s.position.distanceTo s.cameraTarget)
              (s.cameraTarget.sub s.position).normalize)
    ∧ ((Main.zoomStep t dx).cameraTarget = t.cameraTarget
      ∧ (Main.zoomStep t dx).position.sub t.position
          = Vec3.smul (dx * (375 / 100000 * max (t.position.distanceTo t.cameraTarget) (1 / 2)))
              (t.cameraTarget.sub t.position).normalize)
    ∧ ((Main.wheelStep t dy).cameraTarget = t.cameraTarget
      ∧ (Main.wheelStep t dy).position.sub t.position
          = Vec3.smul (375 / 100000 * max (t.position.distanceTo t.cameraTarget) (1 / 2)
                * jsSign dy * min |dy| 50)
              (t.cameraTarget.sub t.position).normalize) := by
  refine ⟨⟨rfl, ?_⟩, ⟨rfl, ?_⟩, ⟨rfl, ?_⟩, ⟨rfl, ?_⟩⟩ <;>
    exact Vec3.add_sub_cancel_left _ _

/-- C7: `setPivotPoint p` makes the pivot read back exactly `p` and leaves
camera position and look-at target unchanged (class method and the `main.js`
click-to-set-pivot assignment). -/
theorem setPivot_only_sets_pivot (s : MC.State) (t : Main.State) (p : Vec3) :
    ((MC.setPivotPoint s p).pivotPoint = p
      ∧ (MC.setPivotPoint s p).position = s.position
      ∧ (MC.setPivotPoint s p).cameraTarget = s.cameraTarget)
    ∧ ((Main.setPivotOnClick t p).pivotPoint = p
      ∧ (Main.setPivotOnClick t p).position = t.position
      ∧ (Main.setPivotOnClick t p).cameraTarget = t.cameraTarget) :=
  ⟨⟨rfl, rfl, rfl⟩, ⟨rfl, rfl, rfl⟩⟩

/-- C9: a tumble step with `deltaX = deltaY = 0` leaves camera position,
look-at target and pivot unchanged in exact arithmetic, in both
implementations. -/
theorem tumble_zero_delta_is_identity (o : MC.Options) (s : MC.State)
    (t : Main.State) :
    ((MC.handleTumble o s 0 0).position = s.position
      ∧ (MC.handleTumble o s 0 0).cameraTarget = s.cameraTarget
      ∧ (MC.handleTumble o s 0 0).pivotPoint = s.pivotPoint)
    ∧ ((Main.tumbleStep t 0 0).position = t.position
      ∧ (Main.tumbleStep t 0 0).cameraTarget = t.cameraTarget
      ∧ (Main.tumbleStep t 0 0).pivotPoint = t.pivotPoint) := by
  have hq : ∀ (axis : Vec3) (c : ℝ),
      Quat.setFromAxisAngle axis (-(0 : ℝ) * c) = ⟨0, 0, 0, 1⟩ := by
    intro axis c
    rw [show (-(0 : ℝ) * c) = 0 by ring]
    simp [Quat.setFromAxisAngle]
  refine ⟨⟨?_, ?_, rfl⟩, ⟨?_, ?_, rfl⟩⟩
  · show s.pivotPoint.add (Vec3.smul (s.position.sub s.pivotPoint).length
        ((((s.position.sub s.pivotPoint).applyQuaternion
            (Quat.setFromAxisAngle yAxis (-(0 : ℝ) * o.rotateSpeed))).applyQuaternion
          (Quat.setFromAxisAngle (cameraRight s.camQuat)
            (-(0 : ℝ) * o.rotateSpeed))).normalize)) = s.position
    rw [hq, hq, Vec3.applyQuaternion_id, Vec3.applyQuaternion_id,
      Vec3.smul_length_normalize, Vec3.add_sub_of_sub]
  · show s.pivotPoint.sub (((s.pivotPoint.sub s.cameraTarget).applyQuaternion
        (Quat.setFromAxisAngle yAxis (-(0 : ℝ) * o.rotateSpeed))).applyQuaternion
          (Quat.setFromAxisAngle (cameraRight s.camQuat)
            (-(0 : ℝ) * o.rotateSpeed))) = s.cameraTarget
    rw [hq, hq, Vec3.applyQuaternion_id, Vec3.applyQuaternion_id,
      Vec3.sub_sub_of_sub]
  · show t.pivotPoint.add (Vec3.smul (t.position.sub t.pivotPoint).length
        ((((t.position.sub t.pivotPoint).applyQuaternion
            (Quat.setFromAxisAngle yAxis (-(0 : ℝ) * (5 / 1000)))).applyQuaternion
          (Quat.setFromAxisAngle (cameraRight t.camQuat)
            (-(0 : ℝ) * (5 / 1000)))).normalize)) = t.position
    rw [hq, hq, Vec3.applyQuaternion_id, Vec3.applyQuaternion_id,
      Vec3.smul_length_normalize, Vec3.add_sub_of_sub]
  · show t.pivotPoint.sub (((t.pivotPoint.sub t.cameraTarget).applyQuaternion
        (Quat.setFromAxisAngle yAxis (-(0 : ℝ) * (5 / 1000)))).applyQuaternion
          (Quat.setFromAxisAngle (cameraRight t.camQuat)
            (-(0 : ℝ) * (5 / 1000)))) = t.cameraTarget
    rw [hq, hq, Vec3.applyQuaternion_id, Vec3.applyQuaternion_id,
      Vec3.sub_sub_of_sub]

end Riser

namespace Riser

/-- C5 counterexample: with a tumble drag already active (Alt held, enabled),
a second mousedown with button 1 is not a no-op — `onMouseDown` has no
active-mode guard and overwrites the active mode with `pan`. -/
theorem second_mousedown_overwrites_mode :
    dragActiveState.activeControl = some Control.tumble
    ∧ (MC.onMouseDown dragActiveState 1 0 0).activeControl = some Control.pan := by
  refine ⟨rfl, ?_⟩
  simp [MC.onMouseDown, dragActiveState]

/-- C5 amended: while the modifier is held (and the controls enabled), any
mousedown — including a second one during an active drag — re-snapshots the
drag state and sets the active mode from the pressed button (0 → tumble,
1 → pan, 2 → zoom, other buttons keep the previous mode); the original mode
persists only when the same or an unmapped button is pressed. -/
theorem mousedown_sets_mode_from_button (s : MC.State) (t : Main.State)
    (b : ℕ) (x y : ℝ) (hse : s.isEnabled = true) (hsa : s.isAltDown = true)
    (hta : t.isAltDown = true) :
    (MC.onMouseDown s b x y).activeControl
      = (if b = 0 then some Control.tumble
         else if b = 1 then some Control.pan
         else if b = 2 then some Control.zoom
         else s.activeControl)
    ∧ (Main.mouseDown t b x y).activeControl
      = (if b = 0 then some Control.tumble
         else if b = 1 then some Control.pan
         else if b = 2 then some Control.zoom
         else t.activeControl) := by
  constructor
  · unfold MC.onMouseDown
    rw [if_neg (by simp [hse, hsa])]
  · unfold Main.mouseDown
    rw [if_neg (by simp [hta])]

/-- Witness for the amended C5: a concrete second mousedown (button 1) during
an active tumble drag. -/
theorem mousedown_sets_mode_from_button_witness :
    dragActiveState.isEnabled = true ∧ dragActiveState.isAltDown = true
    ∧ mainSample.isAltDown = true
    ∧ ((MC.onMouseDown dragActiveState 1 0 0).activeControl
        = (if (1 : ℕ) = 0 then some Control.tumble
           else if (1 : ℕ) = 1 then some Control.pan
           else if (1 : ℕ) = 2 then some Control.zoom
           else dragActiveState.activeControl)
      ∧ (Main.mouseDown mainSample 1 0 0).activeControl
        = (if (1 : ℕ) = 0 then some Control.tumble
           else if (1 : ℕ) = 1 then some Control.pan
           else if (1 : ℕ) = 2 then some Control.zoom
           else mainSample.activeControl)) :=
  ⟨rfl, rfl, rfl,
    mousedown_sets_mode_from_button dragActiveState mainSample 1 0 0 rfl rfl rfl⟩

/-- C8 counterexample: in a single `main.js` zoom drag started from distance
4 (snapshot `zoomStartDistance = 4` unchanged throughout), two successive
steps with the same `deltaX = 100` move the camera by different amounts
(`3/2` then `15/16`) — the per-pixel speed is recomputed from the current
distance, not taken from the drag-start snapshot. -/
theorem drag_zoom_speed_not_constant :
    (Main.zoomStep (Main.mouseDown zoomDragState 2 0 0) 100).zoomStartDistance
      = (Main.mouseDown zoomDragState 2 0 0).zoomStartDistance
    ∧ (Main.zoomStep (Main.mouseDown zoomDragState 2 0 0) 100).position.distanceTo
        (Main.mouseDown zoomDragState 2 0 0).position
      ≠ (Main.zoomStep (Main.zoomStep (Main.mouseDown zoomDragState 2 0 0) 100) 100).position.distanceTo
          (Main.zoomStep (Main.mouseDown zoomDragState 2 0 0) 100).position := by
  have hs0 : (Main.mouseDown zoomDragState 2 0 0).position = ⟨0, 0, 4⟩ := by
    simp [Main.mouseDown, zoomDragState]
  have ht0 : (Main.mouseDown zoomDragState 2 0 0).cameraTarget = ⟨0, 0, 0⟩ := by
    simp [Main.mouseDown, zoomDragState]
  have hstep1 : (Main.zoomStep (Main.mouseDown zoomDragState 2 0 0) 100).position
      = ⟨0, 0, 5 / 2⟩ := by
    rw [zoomStep_z_axis _ 4 100 (by norm_num) hs0 ht0,
      show max (4 : ℝ) (1 / 2) = 4 from max_eq_left (by norm_num)]
    norm_num
  have ht1 : (Main.zoomStep (Main.mouseDown zoomDragState 2 0 0) 100).cameraTarget
      = ⟨0, 0, 0⟩ := ht0
  have hstep2 : (Main.zoomStep (Main.zoomStep (Main.mouseDown zoomDragState 2 0 0) 100)
      100).position = ⟨0, 0, 25 / 16⟩ := by
    rw [zoomStep_z_axis _ (5 / 2) 100 (by norm_num) hstep1 ht1,
      show max (5 / 2 : ℝ) (1 / 2) = 5 / 2 from max_eq_left (by norm_num)]
    norm_num
  refine ⟨rfl, ?_⟩
  rw [Vec3.distanceTo, Vec3.distanceTo, hstep1, hstep2, hs0,
    show (Vec3.mk 0 0 (5 / 2)).sub ⟨0, 0, 4⟩ = ⟨0, 0, -(3 / 2)⟩ from by
      norm_num [Vec3.sub],
    show (Vec3.mk 0 0 (25 / 16)).sub ⟨0, 0, 5 / 2⟩ = ⟨0, 0, -(15 / 16)⟩ from by
      norm_num [Vec3.sub],
    Vec3.length_axis_z, Vec3.length_axis_z, abs_neg, abs_neg,
    abs_of_nonneg (by norm_num : (0 : ℝ) ≤ 3 / 2),
    abs_of_nonneg (by norm_num : (0 : ℝ) ≤ 15 / 16)]
  norm_num

/-- C8 amended: the `MayaControls` drag-zoom moves the camera by
`deltaX * zoomSpeed * zoomStartDistance` along the normalized
camera-to-target direction, with the drag-start snapshot untouched by the
step (constant per-pixel speed through a drag); the `main.js` drag-zoom
instead moves by `deltaX * 0.00375 * max(currentDistance, 0.5)`, recomputed
from the current distance at every step. -/
theorem drag_zoom_displacement_formulas (o : MC.Options) (s : MC.State)
    (t : Main.State) (dx : ℝ) :
    (MC.handleZoom o s dx).position.sub s.position
      = Vec3.smul (dx * o.zoomSpeed * s.zoomStartDistance)
          (s.cameraTarget.sub s.position).normalize
    ∧ (MC.handleZoom o s dx).zoomStartDistance = s.zoomStartDistance
    ∧ (Main.zoomStep t dx).position.sub t.position
      = Vec3.smul (dx * (375 / 100000 * max (t.position.distanceTo t.cameraTarget) (1 / 2)))
          (t.cameraTarget.sub t.position).normalize
    ∧ (Main.zoomStep t dx).zoomStartDistance = t.zoomStartDistance :=
  ⟨Vec3.add_sub_cancel_left _ _, rfl, Vec3.add_sub_cancel_left _ _, rfl⟩

end Riser

namespace Riser

/-- C4 counterexample: a single wheel event with positive delta can land the
camera exactly on the target in both handlers, so no positive
minimum-distance floor is enforced. `main.js`: from distance exactly
`3/32 = 0.09375`, delta `50` drops the distance to `0` (the
`max(distance, 0.5)` term floors the zoom *speed*, not the distance).
`MayaControls.onWheel` (uncapped `delta * wheelZoomSpeed * distance`): from
distance `10`, delta `4000` at the default speed `0.00025` also drops the
distance to `0`; any larger delta crosses the target. -/
theorem wheel_zoom_reaches_target :
    nearTargetState.position.distanceTo nearTargetState.cameraTarget = 3 / 32
    ∧ (Main.wheelStep nearTargetState 50).position.distanceTo
        nearTargetState.cameraTarget = 0
    ∧ dragActiveState.position.distanceTo dragActiveState.cameraTarget = 10
    ∧ (MC.onWheel MC.defaultOptions dragActiveState 4000).position.distanceTo
        dragActiveState.cameraTarget = 0 := by
  have hd : nearTargetState.position.distanceTo nearTargetState.cameraTarget = 3 / 32 := by
    rw [Vec3.distanceTo,
      show nearTargetState.position.sub nearTargetState.cameraTarget
        = ⟨3 / 32, 0, 0⟩ from by norm_num [nearTargetState, Vec3.sub],
      Vec3.length_axis_x, abs_of_nonneg (by norm_num : (0 : ℝ) ≤ 3 / 32)]
  have hsub : nearTargetState.cameraTarget.sub nearTargetState.position
      = ⟨-(3 / 32), 0, 0⟩ := by
    norm_num [nearTargetState, Vec3.sub]
  have hne : (Vec3.mk (-(3 / 32)) 0 0) ≠ ⟨0, 0, 0⟩ := by
    intro h0
    rw [Vec3.mk.injEq] at h0
    norm_num at h0
  have hdir : (nearTargetState.cameraTarget.sub nearTargetState.position).normalize
      = ⟨-1, 0, 0⟩ := by
    rw [hsub, Vec3.normalize_of_ne _ hne, Vec3.length_axis_x, abs_neg,
      abs_of_nonneg (by norm_num : (0 : ℝ) ≤ 3 / 32), Vec3.smul, Vec3.mk.injEq]
    norm_num
  have hpos : (Main.wheelStep nearTargetState 50).position = ⟨0, 0, 0⟩ := by
    show nearTargetState.position.add
      (Vec3.smul (375 / 100000
          * max (nearTargetState.position.distanceTo nearTargetState.cameraTarget) (1 / 2)
          * jsSign 50 * min |(50 : ℝ)| 50)
        (nearTargetState.cameraTarget.sub nearTargetState.position).normalize) = ⟨0, 0, 0⟩
    rw [hd, hdir, jsSign, if_pos (by norm_num : (0 : ℝ) < 50),
      abs_of_nonneg (by norm_num : (0 : ℝ) ≤ 50), min_self,
      show max (3 / 32 : ℝ) (1 / 2) = 1 / 2 from max_eq_right (by norm_num),
      Vec3.smul, Vec3.add]
    norm_num [nearTargetState]
  have hdc : dragActiveState.position.distanceTo dragActiveState.cameraTarget = 10 := by
    rw [Vec3.distanceTo,
      show dragActiveState.position.sub dragActiveState.cameraTarget = ⟨0, 0, 10⟩ from by
        norm_num [dragActiveState, Vec3.sub],
      Vec3.length_axis_z, abs_of_nonneg (by norm_num : (0 : ℝ) ≤ 10)]
  have hnec : (Vec3.mk 0 0 (-10)) ≠ ⟨0, 0, 0⟩ := by
    intro h0
    rw [Vec3.mk.injEq] at h0
    norm_num at h0
  have hdirc : (dragActiveState.cameraTarget.sub dragActiveState.position).normalize
      = ⟨0, 0, -1⟩ := by
    rw [show dragActiveState.cameraTarget.sub dragActiveState.position
        = ⟨0, 0, -10⟩ from by norm_num [dragActiveState, Vec3.sub],
      Vec3.normalize_of_ne _ hnec, Vec3.length_axis_z, abs_neg,
      abs_of_nonneg (by norm_num : (0 : ℝ) ≤ 10), Vec3.smul, Vec3.mk.injEq]
    norm_num
  have hposc : (MC.onWheel MC.defaultOptions dragActiveState 4000).position
      = ⟨0, 0, 0⟩ := by
    show dragActiveState.position.add
      (Vec3.smul (4000 * MC.defaultOptions.wheelZoomSpeed
          * (dragActiveState.position.distanceTo dragActiveState.cameraTarget))
        (dragActiveState.cameraTarget.sub dragActiveState.position).normalize) = ⟨0, 0, 0⟩
    rw [hdc, hdirc, Vec3.smul, Vec3.add]
    norm_num [dragActiveState, MC.defaultOptions]
  refine ⟨hd, ?_, hdc, ?_⟩
  · rw [Vec3.distanceTo, hpos,
      show (Vec3.mk 0 0 0).sub nearTargetState.cameraTarget = ⟨0, 0, 0⟩ from by
        norm_num [nearTargetState, Vec3.sub],
      Vec3.length_zero_vec]
  · rw [Vec3.distanceTo, hposc,
      show (Vec3.mk 0 0 0).sub dragActiveState.cameraTarget = ⟨0, 0, 0⟩ from by
        norm_num [dragActiveState, Vec3.sub],
      Vec3.length_zero_vec]

/-- C4 amended: neither wheel handler enforces a minimum-distance floor;
positive-delta wheel zoom moves the camera strictly closer without crossing
the target only under per-handler conditions. `main.js` handler: from
current distance at least `3/32`, the new distance is exactly
`d - 0.00375 * max(d, 0.5) * min(delta, 50)` (nonnegative) and the new
target offset is a nonnegative multiple of the old one; below `3/32` the
camera can reach or overshoot the target. `MayaControls.onWheel` (step
`delta * wheelZoomSpeed * d`, uncapped): whenever
`0 < delta * wheelZoomSpeed ≤ 1` (delta at most 4000 at the default speed
`0.00025`) and the camera is off the target, the new distance is
`(1 - delta * wheelZoomSpeed) * d`, strictly smaller, with the offset scaled
on the same side; at `delta * wheelZoomSpeed = 1` it lands exactly on the
target from any distance and beyond that it crosses. -/
theorem wheel_zoom_positive_delta_moves_closer (s : Main.State) (dY : ℝ)
    (o : MC.Options) (sc : MC.State) (dYc : ℝ)
    (hdY : 0 < dY) (hd : 3 / 32 ≤ s.position.distanceTo s.cameraTarget)
    (hkc : 0 < dYc * o.wheelZoomSpeed) (hcap : dYc * o.wheelZoomSpeed ≤ 1)
    (hdc : 0 < sc.position.distanceTo sc.cameraTarget) :
    (Main.wheelStep s dY).position.distanceTo s.cameraTarget
      = s.position.distanceTo s.cameraTarget
        - 375 / 100000 * max (s.position.distanceTo s.cameraTarget) (1 / 2) * min dY 50
    ∧ (Main.wheelStep s dY).position.distanceTo s.cameraTarget
      < s.position.distanceTo s.cameraTarget
    ∧ s.cameraTarget.sub (Main.wheelStep s dY).position
      = Vec3.smul
          ((s.position.distanceTo s.cameraTarget
              - 375 / 100000 * max (s.position.distanceTo s.cameraTarget) (1 / 2)
                * min dY 50)
            / s.position.distanceTo s.cameraTarget)
          (s.cameraTarget.sub s.position)
    ∧ (MC.onWheel o sc dYc).position.distanceTo sc.cameraTarget
      = (1 - dYc * o.wheelZoomSpeed) * (sc.position.distanceTo sc.cameraTarget)
    ∧ (MC.onWheel o sc dYc).position.distanceTo sc.cameraTarget
      < sc.position.distanceTo sc.cameraTarget
    ∧ sc.cameraTarget.sub (MC.onWheel o sc dYc).position
      = Vec3.smul (1 - dYc * o.wheelZoomSpeed) (sc.cameraTarget.sub sc.position) := by
  set d := s.position.distanceTo s.cameraTarget with hddef
  set f := 375 / 100000 * max d (1 / 2) * min dY 50 with hfdef
  have hd0 : (0 : ℝ) < d := lt_of_lt_of_le (by norm_num) hd
  have hwlen : (s.cameraTarget.sub s.position).length = d := by
    rw [Vec3.length_sub_comm]; rfl
  have hwne : s.cameraTarget.sub s.position ≠ ⟨0, 0, 0⟩ := by
    intro h0
    rw [h0, Vec3.length_zero_vec] at hwlen
    exact absurd hwlen.symm (ne_of_gt hd0)
  have hdir : (s.cameraTarget.sub s.position).normalize
      = Vec3.smul d⁻¹ (s.cameraTarget.sub s.position) := by
    rw [Vec3.normalize_of_ne _ hwne, hwlen]
  have hposition : (Main.wheelStep s dY).position
      = s.position.add
          (Vec3.smul ((375 / 100000 * max d (1 / 2) * jsSign dY * min |dY| 50) * d⁻¹)
            (s.cameraTarget.sub s.position)) := by
    show s.position.add
      (Vec3.smul (375 / 100000 * max d (1 / 2) * jsSign dY * min |dY| 50)
        (s.cameraTarget.sub s.position).normalize) = _
    rw [hdir, Vec3.smul_smul]
  have hsign : (375 / 100000 * max d (1 / 2) * jsSign dY * min |dY| 50) = f := by
    rw [jsSign, if_pos hdY, abs_of_pos hdY, hfdef]
    ring
  have hoffset : s.cameraTarget.sub (Main.wheelStep s dY).position
      = Vec3.smul ((d - f) / d) (s.cameraTarget.sub s.position) := by
    rw [hposition, Vec3.sub_add_eq, Vec3.sub_smul_self, hsign]
    congr 1
    field_simp
  have hminpos : (0 : ℝ) < min dY 50 := lt_min hdY (by norm_num)
  have hmaxpos : (0 : ℝ) < max d (1 / 2) :=
    lt_of_lt_of_le (by norm_num) (le_max_right _ _)
  have hfpos : 0 < f := by
    rw [hfdef]
    exact mul_pos (mul_pos (by norm_num) hmaxpos) hminpos
  have hfle : f ≤ d := by
    have h2 : min dY 50 ≤ 50 := min_le_right _ _
    rcases le_total d (1 / 2) with hcase | hcase
    · rw [hfdef, max_eq_right hcase]
      linarith
    · rw [hfdef, max_eq_left hcase]
      have h3 : d * min dY 50 ≤ d * 50 := mul_le_mul_of_nonneg_left h2 hd0.le
      linarith
  have hc1 : (Main.wheelStep s dY).position.distanceTo s.cameraTarget = d - f := by
    rw [Vec3.distanceTo, Vec3.length_sub_comm, hoffset, Vec3.length_smul, hwlen,
      abs_of_nonneg (div_nonneg (by linarith) hd0.le)]
    field_simp
  set dc := sc.position.distanceTo sc.cameraTarget with hdcdef
  have hdc0 : dc ≠ 0 := ne_of_gt hdc
  have hwlenc : (sc.cameraTarget.sub sc.position).length = dc := by
    rw [Vec3.length_sub_comm]; rfl
  have hwnec : sc.cameraTarget.sub sc.position ≠ ⟨0, 0, 0⟩ := by
    intro h0
    rw [h0, Vec3.length_zero_vec] at hwlenc
    exact hdc0 hwlenc.symm
  have hdirc : (sc.cameraTarget.sub sc.position).normalize
      = Vec3.smul dc⁻¹ (sc.cameraTarget.sub sc.position) := by
    rw [Vec3.normalize_of_ne _ hwnec, hwlenc]
  have hposc : (MC.onWheel o sc dYc).position
      = sc.position.add
          (Vec3.smul ((dYc * o.wheelZoomSpeed * dc) * dc⁻¹)
            (sc.cameraTarget.sub sc.position)) := by
    show sc.position.add
      (Vec3.smul (dYc * o.wheelZoomSpeed * dc)
        (sc.cameraTarget.sub sc.position).normalize) = _
    rw [hdirc, Vec3.smul_smul]
  have hoffc : sc.cameraTarget.sub (MC.onWheel o sc dYc).position
      = Vec3.smul (1 - dYc * o.wheelZoomSpeed) (sc.cameraTarget.sub sc.position) := by
    rw [hposc, Vec3.sub_add_eq, Vec3.sub_smul_self, mul_inv_cancel_right₀ hdc0]
  have hc1c : (MC.onWheel o sc dYc).position.distanceTo sc.cameraTarget
      = (1 - dYc * o.wheelZoomSpeed) * dc := by
    rw [Vec3.distanceTo, Vec3.length_sub_comm, hoffc, Vec3.length_smul, hwlenc,
      abs_of_nonneg (by linarith : (0 : ℝ) ≤ 1 - dYc * o.wheelZoomSpeed)]
  have hc2c : (MC.onWheel o sc dYc).position.distanceTo sc.cameraTarget < dc := by
    rw [hc1c, show (1 - dYc * o.wheelZoomSpeed) * dc
        = dc - dYc * o.wheelZoomSpeed * dc from by ring]
    have hprod := mul_pos hkc hdc
    linarith
  exact ⟨hc1, by rw [hc1]; linarith, hoffset, hc1c, hc2c, hoffc⟩

/-- Witness for the amended C4: `main.js` with the camera one unit from the
target and wheel delta `8` (distance drops to exactly `1 - 0.00375 * 8`),
and `MayaControls.onWheel` at the default options with delta `100` from
distance `10` (distance drops to `(1 - 100 * 0.00025) * 10`), both staying
positive. -/
theorem wheel_zoom_positive_delta_moves_closer_witness :
    (0 : ℝ) < 8
    ∧ 3 / 32 ≤ unitZState.position.distanceTo unitZState.cameraTarget
    ∧ (0 : ℝ) < 100 * MC.defaultOptions.wheelZoomSpeed
    ∧ 100 * MC.defaultOptions.wheelZoomSpeed ≤ 1
    ∧ (0 : ℝ) < dragActiveState.position.distanceTo dragActiveState.cameraTarget
    ∧ ((Main.wheelStep unitZState 8).position.distanceTo unitZState.cameraTarget
        = unitZState.position.distanceTo unitZState.cameraTarget
          - 375 / 100000 * max (unitZState.position.distanceTo unitZState.cameraTarget) (1 / 2)
            * min 8 50
      ∧ (Main.wheelStep unitZState 8).position.distanceTo unitZState.cameraTarget
        < unitZState.position.distanceTo unitZState.cameraTarget
      ∧ unitZState.cameraTarget.sub (Main.wheelStep unitZState 8).position
        = Vec3.smul
            ((unitZState.position.distanceTo unitZState.cameraTarget
                - 375 / 100000
                  * max (unitZState.position.distanceTo unitZState.cameraTarget) (1 / 2)
                  * min 8 50)
              / unitZState.position.distanceTo unitZState.cameraTarget)
            (unitZState.cameraTarget.sub unitZState.position)
      ∧ (MC.onWheel MC.defaultOptions dragActiveState 100).position.distanceTo
          dragActiveState.cameraTarget
        = (1 - 100 * MC.defaultOptions.wheelZoomSpeed)
          * (dragActiveState.position.distanceTo dragActiveState.cameraTarget)
      ∧ (MC.onWheel MC.defaultOptions dragActiveState 100).position.distanceTo
          dragActiveState.cameraTarget
        < dragActiveState.position.distanceTo dragActiveState.cameraTarget
      ∧ dragActiveState.cameraTarget.sub
          (MC.onWheel MC.defaultOptions dragActiveState 100).position
        = Vec3.smul (1 - 100 * MC.defaultOptions.wheelZoomSpeed)
            (dragActiveState.cameraTarget.sub dragActiveState.position)) :=
  ⟨by norm_num,
    by
      rw [Vec3.distanceTo,
        show unitZState.position.sub unitZState.cameraTarget = ⟨0, 0, 1⟩ from by
          norm_num [unitZState, Vec3.sub],
        Vec3.length_axis_z]
      norm_num,
    by norm_num [MC.defaultOptions],
    by norm_num [MC.defaultOptions],
    by
      rw [Vec3.distanceTo,
        show dragActiveState.position.sub dragActiveState.cameraTarget = ⟨0, 0, 10⟩ from by
          norm_num [dragActiveState, Vec3.sub],
        Vec3.length_axis_z, abs_of_nonneg (by norm_num : (0 : ℝ) ≤ 10)]
      norm_num,
    wheel_zoom_positive_delta_moves_closer unitZState 8 MC.defaultOptions
      dragActiveState 100 (by norm_num)
      (by
        rw [Vec3.distanceTo,
          show unitZState.position.sub unitZState.cameraTarget = ⟨0, 0, 1⟩ from by
            norm_num [unitZState, Vec3.sub],
          Vec3.length_axis_z]
        norm_num)
      (by norm_num [MC.defaultOptions])
      (by norm_num [MC.defaultOptions])
      (by
        rw [Vec3.distanceTo,
          show dragActiveState.position.sub dragActiveState.cameraTarget = ⟨0, 0, 10⟩ from by
            norm_num [dragActiveState, Vec3.sub],
          Vec3.length_axis_z, abs_of_nonneg (by norm_num : (0 : ℝ) ≤ 10)]
        norm_num)⟩

/-- C10 counterexample: with the camera exactly at the look-at target, a
wheel event with `deltaY = 1` does not move the camera at all (the `|| 1`
normalize guard yields a zero direction), while the claimed displacement
formula `0.00375 * max(d, 0.5) * min(|deltaY|, 50)` evaluates to
`3/1600 ≠ 0`. -/
theorem wheel_displacement_formula_fails_at_target :
    (Main.wheelStep atTargetState 1).position.distanceTo atTargetState.position = 0
    ∧ 375 / 100000
        * max (atTargetState.position.distanceTo atTargetState.cameraTarget) (1 / 2)
        * min |(1 : ℝ)| 50 ≠ 0 := by
  have hzero : atTargetState.cameraTarget.sub atTargetState.position = ⟨0, 0, 0⟩ := by
    norm_num [atTargetState, Vec3.sub]
  have hpos : (Main.wheelStep atTargetState 1).position = ⟨0, 0, 0⟩ := by
    show atTargetState.position.add
      (Vec3.smul (375 / 100000
          * max (atTargetState.position.distanceTo atTargetState.cameraTarget) (1 / 2)
          * jsSign 1 * min |(1 : ℝ)| 50)
        (atTargetState.cameraTarget.sub atTargetState.position).normalize) = ⟨0, 0, 0⟩
    rw [hzero, Vec3.normalize_zero_vec, Vec3.smul_zero_vec]
    norm_num [atTargetState, Vec3.add]
  have hd : atTargetState.position.distanceTo atTargetState.cameraTarget = 0 := by
    rw [Vec3.distanceTo,
      show atTargetState.position.sub atTargetState.cameraTarget = ⟨0, 0, 0⟩ from by
        norm_num [atTargetState, Vec3.sub],
      Vec3.length_zero_vec]
  constructor
  · rw [Vec3.distanceTo, hpos,
      show (Vec3.mk 0 0 0).sub atTargetState.position = ⟨0, 0, 0⟩ from by
        norm_num [atTargetState, Vec3.sub],
      Vec3.length_zero_vec]
  · rw [hd, max_eq_right (by norm_num : (0 : ℝ) ≤ 1 / 2), abs_one,
      min_eq_left (by norm_num : (1 : ℝ) ≤ 50)]
    norm_num

/-- C10 amended: whenever the camera is not exactly at the look-at target,
one wheel event displaces it by exactly
`0.00375 * max(|position - target|, 0.5) * min(|deltaY|, 50)`, hence by at
most `0.1875 * max(|position - target|, 0.5)` however large `deltaY` is. -/
theorem wheel_displacement_formula (s : Main.State) (dY : ℝ)
    (h : s.position.sub s.cameraTarget ≠ ⟨0, 0, 0⟩) :
    (Main.wheelStep s dY).position.distanceTo s.position
      = 375 / 100000 * max (s.position.distanceTo s.cameraTarget) (1 / 2) * min |dY| 50
    ∧ (Main.wheelStep s dY).position.distanceTo s.position
      ≤ 3 / 16 * max (s.position.distanceTo s.cameraTarget) (1 / 2) := by
  set d := s.position.distanceTo s.cameraTarget with hddef
  have hne : s.cameraTarget.sub s.position ≠ ⟨0, 0, 0⟩ := by
    intro h0
    apply h
    apply (Vec3.normSq_eq_zero_iff _).mp
    rw [Vec3.normSq_sub_comm, h0]
    norm_num [Vec3.normSq]
  have hdisp : (Main.wheelStep s dY).position.sub s.position
      = Vec3.smul (375 / 100000 * max d (1 / 2) * jsSign dY * min |dY| 50)
          (s.cameraTarget.sub s.position).normalize := Vec3.add_sub_cancel_left _ _
  have hdist : (Main.wheelStep s dY).position.distanceTo s.position
      = |375 / 100000 * max d (1 / 2) * jsSign dY * min |dY| 50| := by
    rw [Vec3.distanceTo, hdisp, Vec3.length_smul, Vec3.length_normalize _ hne, mul_one]
  have hmaxpos : (0 : ℝ) < max d (1 / 2) :=
    lt_of_lt_of_le (by norm_num) (le_max_right _ _)
  have hmin_nonneg : (0 : ℝ) ≤ min |dY| 50 := le_min (abs_nonneg dY) (by norm_num)
  have hbase_nonneg : (0 : ℝ) ≤ 375 / 100000 * max d (1 / 2) :=
    mul_nonneg (by norm_num) hmaxpos.le
  have habs : |375 / 100000 * max d (1 / 2) * jsSign dY * min |dY| 50|
      = 375 / 100000 * max d (1 / 2) * min |dY| 50 := by
    rcases lt_trichotomy dY 0 with hdY | hdY | hdY
    · rw [jsSign, if_neg (not_lt.mpr hdY.le), if_pos hdY,
        show 375 / 100000 * max d (1 / 2) * (-1 : ℝ) * min |dY| 50
          = -(375 / 100000 * max d (1 / 2) * min |dY| 50) by ring,
        abs_neg, abs_of_nonneg (mul_nonneg hbase_nonneg hmin_nonneg)]
    · subst hdY
      rw [jsSign, if_neg (lt_irrefl 0), if_neg (lt_irrefl 0), abs_zero,
        min_eq_left (by norm_num : (0 : ℝ) ≤ 50)]
      ring_nf
      rw [abs_of_nonneg (le_refl 0)]
    · rw [jsSign, if_pos hdY, mul_one,
        abs_of_nonneg (mul_nonneg hbase_nonneg hmin_nonneg)]
  constructor
  · rw [hdist, habs]
  · rw [hdist, habs]
    calc 375 / 100000 * max d (1 / 2) * min |dY| 50
        ≤ 375 / 100000 * max d (1 / 2) * 50 :=
          mul_le_mul_of_nonneg_left (min_le_right _ _) hbase_nonneg
      _ = 3 / 16 * max d (1 / 2) := by ring

/-- Witness for the amended C10: camera one unit from the target, wheel delta
`100` — the displacement equals the formula value and respects the cap. -/
theorem wheel_displacement_formula_witness :
    unitZState.position.sub unitZState.cameraTarget ≠ ⟨0, 0, 0⟩
    ∧ ((Main.wheelStep unitZState 100).position.distanceTo unitZState.position
        = 375 / 100000 * max (unitZState.position.distanceTo unitZState.cameraTarget) (1 / 2)
          * min |(100 : ℝ)| 50
      ∧ (Main.wheelStep unitZState 100).position.distanceTo unitZState.position
        ≤ 3 / 16 * max (unitZState.position.distanceTo unitZState.cameraTarget) (1 / 2)) :=
  ⟨by
    rw [show unitZState.position.sub unitZState.cameraTarget = ⟨0, 0, 1⟩ from by
      norm_num [unitZState, Vec3.sub]]
    intro h0
    rw [Vec3.mk.injEq] at h0
    norm_num at h0,
    wheel_displacement_formula unitZState 100
      (by
        rw [show unitZState.position.sub unitZState.cameraTarget = ⟨0, 0, 1⟩ from by
          norm_num [unitZState, Vec3.sub]]
        intro h0
        rw [Vec3.mk.injEq] at h0
        norm_num at h0)⟩

end Riser
